import Mathlib

/-!
Verification of the qpid broker message-selector design
(src/cpp/src/qpid/broker/Selector.h) against its natural-language
specification.

The header under src/ declares the public surface only: `SelectorEnv`
(with `present` and `value`), `MessageSelectorEnv`, `Selector` (with
`eval` and `filter`) and `returnSelector`.  The lexer, parser, evaluator
and cache bodies are not part of src/, so they are modelled here from the
specification (each such definition's doc comment starts with
`Modelled from the spec:`).  Definitions that mirror declarations present
in the header (the shape of `SelectorEnv`, the single `const std::string
expression` member of `Selector`, the documented non-caching behaviour of
`returnSelector`) follow the header.
-/

namespace Qpid

/-- Modelled from the spec: the three-valued result of the evaluator,
`TriState ∈ {True, False, Unknown}`. -/
inductive TriState where
| tTrue : TriState
| tFalse : TriState
| tUnknown : TriState
deriving DecidableEq, Repr

/-- Modelled from the spec: `NOT` flips True/False; Unknown stays Unknown. -/
def triNot : TriState → TriState
| .tTrue => .tFalse
| .tFalse => .tTrue
| .tUnknown => .tUnknown

/-- Modelled from the spec: `AND`: False dominates; otherwise Unknown
dominates; True AND True = True. -/
def triAnd : TriState → TriState → TriState
| .tFalse, _ => .tFalse
| _, .tFalse => .tFalse
| .tUnknown, _ => .tUnknown
| _, .tUnknown => .tUnknown
| .tTrue, .tTrue => .tTrue

/-- Modelled from the spec: `OR`: True dominates; otherwise Unknown
dominates; False OR False = False. -/
def triOr : TriState → TriState → TriState
| .tTrue, _ => .tTrue
| _, .tTrue => .tTrue
| .tUnknown, _ => .tUnknown
| _, .tUnknown => .tUnknown
| .tFalse, .tFalse => .tFalse

/-- Lift a definite boolean into the three-valued domain. -/
def boolToTri (b : Bool) : TriState := if b then .tTrue else .tFalse

/-- Modelled from the spec: numeric values are exact (integer) or
approximate; approximate numerics are modelled by rationals, which keep
the arithmetic and comparisons of the design decidable. -/
inductive NumV where
| exact : Int → NumV
| approx : Rat → NumV
deriving DecidableEq, Repr

/-- View of a numeric value as a rational, for comparisons
(exact and approximate numerics compare on the common number line). -/
def NumV.toRat : NumV → Rat
| .exact i => (i : Rat)
| .approx q => q

/-- Modelled from the spec: a literal is one of string, exact numeric
(integer), approximate numeric, boolean. -/
inductive Lit where
| lstr : String → Lit
| lexact : Int → Lit
| lapprox : Rat → Lit
| lbool : Bool → Lit
deriving DecidableEq, Repr

/-- Modelled from the spec: the value domain of the evaluator: strings,
numerics and booleans (identifiers resolve to the environment's string
form; literals carry their own type). -/
inductive Val where
| vstr : String → Val
| vnum : NumV → Val
| vbool : Bool → Val
deriving DecidableEq, Repr

/-- The evaluation-environment capability of Selector.h: `present` says
whether the named property exists, `value` gives its string form
(the header returns a plain `std::string`, with no absent case). -/
structure SelectorEnv where
present : String → Bool
value : String → String

/-- A message, as far as the selector core observes one: its named
properties with their string forms (the concrete message representation
is out of scope for the core). -/
def Msg := List (String × String)

/-- Modelled from the spec: `MessageSelectorEnv` adapts a message to the
environment capability: `present` is property existence, `value` its
string form ("no value" — here the empty string — if absent, though the
evaluator only consults `value` behind a `present` check). -/
def msgEnv (m : Msg) : SelectorEnv :=
{ present := fun n => (m.lookup n).isSome
, value := fun n => (m.lookup n).getD "" }

/-- Modelled from the spec: the reserved words of the grammar, matched
case-insensitively. -/
inductive ResW where
| rAnd | rOr | rNot | rBetween | rLike | rIn | rIs | rNull | rEscape
| rTrue | rFalse
deriving DecidableEq, Repr

/-- Modelled from the spec: the operator and punctuation tokens
`= <> > < >= <= + - * / ( ) , .`. -/
inductive OpT where
| oEq | oNe | oGt | oLt | oGe | oLe | oPlus | oMinus | oStar | oSlash
| oLP | oRP | oComma | oDot
deriving DecidableEq, Repr

/-- Modelled from the spec: a token kind: identifier, reserved word,
numeric literal, string literal, operator/punctuation. -/
inductive Tok where
| tIdent : String → Tok
| tRes : ResW → Tok
| tNum : NumV → Tok
| tStr : String → Tok
| tOp : OpT → Tok
deriving DecidableEq, Repr

/-- A token with its source position (in characters), for error
reporting. -/
structure Token where
tok : Tok
pos : Nat
deriving DecidableEq, Repr

/-- Modelled from the spec: `LexError` carries the offending text and its
position. -/
structure LexErr where
pos : Nat
msg : String
deriving DecidableEq, Repr

/-- The single-quote character delimiting string literals. -/
def quoteC : Char := Char.ofNat 39

/-- First character of an identifier: a letter or underscore. -/
def isIdentStart (c : Char) : Bool := c.isAlpha || c == '_'

/-- Subsequent identifier characters: alphanumerics or underscore. -/
def isIdentChar (c : Char) : Bool := c.isAlphanum || c == '_'

/-- Uppercase a word character by character (kept first-order so that
concrete lexing computes by kernel reduction). -/
def upperStr (s : String) : String :=
String.mk (s.toList.map Char.toUpper)

/-- Map a word to its reserved-word token, matching case-insensitively. -/
def reservedOf (s : String) : Option ResW :=
match upperStr s with
| "AND" => some .rAnd
| "OR" => some .rOr
| "NOT" => some .rNot
| "BETWEEN" => some .rBetween
| "LIKE" => some .rLike
| "IN" => some .rIn
| "IS" => some .rIs
| "NULL" => some .rNull
| "ESCAPE" => some .rEscape
| "TRUE" => some .rTrue
| "FALSE" => some .rFalse
| _ => none

/-- Rational multiplication through normalized construction (kept
first-order so that concrete evaluation computes by kernel reduction). -/
def ratMul (a b : Rat) : Rat := mkRat (a.num * b.num) (a.den * b.den)

/-- Rational addition through normalized construction. -/
def ratAdd (a b : Rat) : Rat :=
mkRat (a.num * (b.den : Int) + b.num * (a.den : Int)) (a.den * b.den)

/-- Rational subtraction through normalized construction. -/
def ratSub (a b : Rat) : Rat :=
mkRat (a.num * (b.den : Int) - b.num * (a.den : Int)) (a.den * b.den)

/-- Rational division through normalized construction (division by zero
gives zero, but callers guard it). -/
def ratDiv (a b : Rat) : Rat :=
if b.num < 0 then mkRat (-(a.num * (b.den : Int))) (a.den * b.num.natAbs)
else mkRat (a.num * (b.den : Int)) (a.den * b.num.natAbs)

/-- Accumulate a digit run into a natural number. -/
def digitsToNat (ds : List Char) : Nat :=
ds.foldl (fun acc c => 10 * acc + (c.toNat - 48)) 0

/-- Modelled from the spec: numeric literals without a decimal point or
exponent are exact integers; others are approximate values
(mantissa scaled by a power of ten). -/
def numLitVal (intPart fracPart : List Char) (expVal : Option Int) : NumV :=
if fracPart.isEmpty && expVal.isNone then
  .exact (digitsToNat intPart : Int)
else
  let e : Int := expVal.getD 0
  let base : Rat := mkRat (digitsToNat (intPart ++ fracPart) : Int)
    (10 ^ fracPart.length)
  .approx (if 0 ≤ e then ratMul base (mkRat ((10 : Int) ^ e.toNat) 1)
           else ratMul base (mkRat 1 (10 ^ (-e).toNat)))

/-- Scan an optional exponent clause after a numeric literal: `e`/`E`,
optional sign, one or more digits; if no well-formed exponent follows,
nothing is consumed. Returns (exponent, remaining, consumed count). -/
def scanExp (cs : List Char) : Option Int × List Char × Nat :=
match cs with
| c :: rest =>
  if c == 'e' || c == 'E' then
    match rest with
    | s :: d :: _ =>
      if (s == '+' || s == '-') && d.isDigit then
        let ds := (rest.drop 1).takeWhile Char.isDigit
        let v : Int := (digitsToNat ds : Int)
        (some (if s == '-' then -v else v), (rest.drop 1).dropWhile Char.isDigit, 2 + ds.length)
      else if s.isDigit then
        let ds := rest.takeWhile Char.isDigit
        (some (digitsToNat ds : Int), rest.dropWhile Char.isDigit, 1 + ds.length)
      else (none, cs, 0)
    | [d] =>
      if d.isDigit then (some (digitsToNat [d] : Int), [], 2)
      else (none, cs, 0)
    | [] => (none, cs, 0)
  else (none, cs, 0)
| [] => (none, cs, 0)

/-- Scan the tail of a single-quoted string literal (opening quote already
consumed): a doubled quote stands for a literal quote; reaching the end of
input without a closing quote is a lexical error. Returns the literal's
characters, the remaining input and the count of characters consumed. -/
def scanStr (fuel : Nat) (cs : List Char) (pos : Nat) :
    Except LexErr (List Char × List Char × Nat) :=
match fuel, cs with
| _, [] => .error ⟨pos, "unterminated string literal"⟩
| 0, _ => .error ⟨pos, "lexer fuel exhausted"⟩
| f + 1, c :: rest =>
  if c == quoteC then
    match rest with
    | c2 :: rest2 =>
      if c2 == quoteC then
        match scanStr f rest2 (pos + 2) with
        | .ok (s, rem, k) => .ok (quoteC :: s, rem, k + 2)
        | .error e => .error e
      else .ok ([], rest, 1)
    | [] => .ok ([], [], 1)
  else
    match scanStr f rest (pos + 1) with
    | .ok (s, rem, k) => .ok (c :: s, rem, k + 1)
    | .error e => .error e

/-- Modelled from the spec: the lexer loop: skips whitespace and produces
identifiers/reserved words, numeric literals, string literals and
operators, failing with a `LexErr` when no token can be formed. -/
def lexRun (fuel : Nat) (cs : List Char) (pos : Nat) :
    Except LexErr (List Token) :=
match fuel, cs with
| _, [] => .ok []
| 0, _ => .error ⟨pos, "lexer fuel exhausted"⟩
| f + 1, c :: rest =>
  if c.isWhitespace then lexRun f rest (pos + 1)
  else if isIdentStart c then
    let tail := rest.takeWhile isIdentChar
    let word := String.mk (c :: tail)
    let t : Tok := match reservedOf word with
      | some r => .tRes r
      | none => .tIdent word
    match lexRun f (rest.dropWhile isIdentChar) (pos + 1 + tail.length) with
    | .ok ts => .ok (⟨t, pos⟩ :: ts)
    | .error e => .error e
  else if c.isDigit then
    let ip := (c :: rest).takeWhile Char.isDigit
    let afterInt := (c :: rest).dropWhile Char.isDigit
    let (fp, afterFrac, fracN) :=
      match afterInt with
      | d1 :: d2 :: _ =>
        if d1 == '.' && d2.isDigit then
          let ds := (afterInt.drop 1).takeWhile Char.isDigit
          (ds, (afterInt.drop 1).dropWhile Char.isDigit, 1 + ds.length)
        else ([], afterInt, 0)
      | _ => ([], afterInt, 0)
    let (ev, afterExp, expN) := scanExp afterFrac
    match lexRun f afterExp (pos + ip.length + fracN + expN) with
    | .ok ts => .ok (⟨.tNum (numLitVal ip fp ev), pos⟩ :: ts)
    | .error e => .error e
  else if c == quoteC then
    match scanStr f rest (pos + 1) with
    | .error e => .error e
    | .ok (s, rem, k) =>
      match lexRun f rem (pos + 1 + k) with
      | .ok ts => .ok (⟨.tStr (String.mk s), pos⟩ :: ts)
      | .error e => .error e
  else
    let two : Option (OpT × Nat) :=
      match c, rest with
      | '<', '>' :: _ => some (.oNe, 2)
      | '<', '=' :: _ => some (.oLe, 2)
      | '>', '=' :: _ => some (.oGe, 2)
      | _, _ => none
    match two with
    | some (o, n) =>
      match lexRun f (rest.drop (n - 1)) (pos + n) with
      | .ok ts => .ok (⟨.tOp o, pos⟩ :: ts)
      | .error e => .error e
    | none =>
      let one : Option OpT :=
        match c with
        | '=' => some .oEq
        | '<' => some .oLt
        | '>' => some .oGt
        | '+' => some .oPlus
        | '-' => some .oMinus
        | '*' => some .oStar
        | '/' => some .oSlash
        | '(' => some .oLP
        | ')' => some .oRP
        | ',' => some .oComma
        | '.' => some .oDot
        | _ => none
      match one with
      | some o =>
        match lexRun f rest (pos + 1) with
        | .ok ts => .ok (⟨.tOp o, pos⟩ :: ts)
        | .error e => .error e
      | none => .error ⟨pos, "cannot form a token at character " ++ String.mk [c]⟩

/-- Modelled from the spec: lex a whole selector source text. -/
def lexAll (src : String) : Except LexErr (List Token) :=
lexRun (src.length + 1) src.toList 0

/-- Modelled from the spec: the comparison operators `= <> < > <= >=`. -/
inductive CmpOp where
| ceq | cne | clt | cgt | cle | cge
deriving DecidableEq, Repr

/-- Modelled from the spec: the arithmetic operators `+ - * /`. -/
inductive ArithOp where
| aAdd | aSub | aMul | aDiv
deriving DecidableEq, Repr

/-- Modelled from the spec: the AST of a parsed selector: identifiers,
literals, boolean connectives, comparisons, arithmetic, unary minus,
`BETWEEN`, `IN`, `LIKE` and `IS [NOT] NULL`, each negatable where the
grammar allows `NOT`. -/
inductive Expr where
| ident : String → Expr
| lit : Lit → Expr
| notE : Expr → Expr
| andE : Expr → Expr → Expr
| orE : Expr → Expr → Expr
| cmpE : CmpOp → Expr → Expr → Expr
| arith : ArithOp → Expr → Expr → Expr
| negE : Expr → Expr
| between : Expr → Expr → Expr → Bool → Expr
| inList : Expr → List Lit → Bool → Expr
| like : Expr → String → Option Char → Bool → Expr
| isNull : Expr → Bool → Expr
deriving DecidableEq, Repr

/-- Modelled from the spec: `ParseError` carries expected-vs-found context
and a position (none when the input ended prematurely). -/
structure ParseErr where
pos : Option Nat
msg : String
deriving DecidableEq, Repr

/-- Modelled from the spec: a compile attempt fails with either a lexical
or a parse error. -/
inductive CompErr where
| lexE : LexErr → CompErr
| parseE : ParseErr → CompErr
deriving DecidableEq, Repr

/-- Turn a numeric token's value into a literal. -/
def litOfNum : NumV → Lit
| .exact i => .lexact i
| .approx q => .lapprox q

/-- Parse one literal inside an `IN (...)` list: a string, a number
(optionally signed), or a boolean. -/
def parseListLit (toks : List Token) : Except ParseErr (Lit × List Token) :=
match toks with
| ⟨.tStr s, _⟩ :: r => .ok (.lstr s, r)
| ⟨.tNum n, _⟩ :: r => .ok (litOfNum n, r)
| ⟨.tOp .oMinus, _⟩ :: ⟨.tNum (.exact i), _⟩ :: r => .ok (.lexact (-i), r)
| ⟨.tOp .oMinus, _⟩ :: ⟨.tNum (.approx q), _⟩ :: r => .ok (.lapprox (Rat.neg q), r)
| ⟨.tRes .rTrue, _⟩ :: r => .ok (.lbool true, r)
| ⟨.tRes .rFalse, _⟩ :: r => .ok (.lbool false, r)
| ⟨_, p⟩ :: _ => .error ⟨some p, "expected a literal in IN list"⟩
| [] => .error ⟨none, "expected a literal in IN list, found end of input"⟩

mutual

/-- Modelled from the spec: lowest-precedence tier: `OR`. -/
def parseOrE (fuel : Nat) (toks : List Token) :
    Except ParseErr (Expr × List Token) :=
match fuel with
| 0 => .error ⟨none, "parser fuel exhausted"⟩
| f + 1 => do
  let (a, r) ← parseAndE f toks
  parseOrRest f a r

/-- Left-associative chain of `OR` operands. -/
def parseOrRest (fuel : Nat) (acc : Expr) (toks : List Token) :
    Except ParseErr (Expr × List Token) :=
match fuel with
| 0 => .error ⟨none, "parser fuel exhausted"⟩
| f + 1 =>
  match toks with
  | ⟨.tRes .rOr, _⟩ :: r => do
    let (b, r2) ← parseAndE f r
    parseOrRest f (.orE acc b) r2
  | _ => .ok (acc, toks)

/-- Modelled from the spec: `AND` tier. -/
def parseAndE (fuel : Nat) (toks : List Token) :
    Except ParseErr (Expr × List Token) :=
match fuel with
| 0 => .error ⟨none, "parser fuel exhausted"⟩
| f + 1 => do
  let (a, r) ← parseNotE f toks
  parseAndRest f a r

/-- Left-associative chain of `AND` operands. -/
def parseAndRest (fuel : Nat) (acc : Expr) (toks : List Token) :
    Except ParseErr (Expr × List Token) :=
match fuel with
| 0 => .error ⟨none, "parser fuel exhausted"⟩
| f + 1 =>
  match toks with
  | ⟨.tRes .rAnd, _⟩ :: r => do
    let (b, r2) ← parseNotE f r
    parseAndRest f (.andE acc b) r2
  | _ => .ok (acc, toks)

/-- Modelled from the spec: unary `NOT` tier. -/
def parseNotE (fuel : Nat) (toks : List Token) :
    Except ParseErr (Expr × List Token) :=
match fuel with
| 0 => .error ⟨none, "parser fuel exhausted"⟩
| f + 1 =>
  match toks with
  | ⟨.tRes .rNot, _⟩ :: r => do
    let (a, r2) ← parseNotE f r
    .ok (.notE a, r2)
  | _ => parseCmpE f toks

/-- Modelled from the spec: comparison tier: binary comparisons and the
fixed-shape `BETWEEN`/`IN`/`LIKE`/`IS [NOT] NULL` clauses, all on one
left-associative tier. -/
def parseCmpE (fuel : Nat) (toks : List Token) :
    Except ParseErr (Expr × List Token) :=
match fuel with
| 0 => .error ⟨none, "parser fuel exhausted"⟩
| f + 1 => do
  let (a, r) ← parseAddE f toks
  parseCmpRest f a r

/-- Chain of comparison-tier clauses applied to the operand on their
left. -/
def parseCmpRest (fuel : Nat) (acc : Expr) (toks : List Token) :
    Except ParseErr (Expr × List Token) :=
match fuel with
| 0 => .error ⟨none, "parser fuel exhausted"⟩
| f + 1 =>
  match toks with
  | ⟨.tOp .oEq, _⟩ :: r => do
    let (b, r2) ← parseAddE f r
    parseCmpRest f (.cmpE .ceq acc b) r2
  | ⟨.tOp .oNe, _⟩ :: r => do
    let (b, r2) ← parseAddE f r
    parseCmpRest f (.cmpE .cne acc b) r2
  | ⟨.tOp .oLt, _⟩ :: r => do
    let (b, r2) ← parseAddE f r
    parseCmpRest f (.cmpE .clt acc b) r2
  | ⟨.tOp .oGt, _⟩ :: r => do
    let (b, r2) ← parseAddE f r
    parseCmpRest f (.cmpE .cgt acc b) r2
  | ⟨.tOp .oLe, _⟩ :: r => do
    let (b, r2) ← parseAddE f r
    parseCmpRest f (.cmpE .cle acc b) r2
  | ⟨.tOp .oGe, _⟩ :: r => do
    let (b, r2) ← parseAddE f r
    parseCmpRest f (.cmpE .cge acc b) r2
  | ⟨.tRes .rBetween, _⟩ :: r => parseBetweenTail f acc false r
  | ⟨.tRes .rIn, _⟩ :: r => parseInTail f acc false r
  | ⟨.tRes .rLike, _⟩ :: r => parseLikeTail f acc false r
  | ⟨.tRes .rNot, p⟩ :: r =>
    (match r with
     | ⟨.tRes .rBetween, _⟩ :: r2 => parseBetweenTail f acc true r2
     | ⟨.tRes .rIn, _⟩ :: r2 => parseInTail f acc true r2
     | ⟨.tRes .rLike, _⟩ :: r2 => parseLikeTail f acc true r2
     | _ => .error ⟨some p, "expected BETWEEN, IN or LIKE after NOT"⟩)
  | ⟨.tRes .rIs, p⟩ :: r =>
    (match r with
     | ⟨.tRes .rNull, _⟩ :: r2 => parseCmpRest f (.isNull acc false) r2
     | ⟨.tRes .rNot, _⟩ :: ⟨.tRes .rNull, _⟩ :: r2 =>
       parseCmpRest f (.isNull acc true) r2
     | _ => .error ⟨some p, "expected [NOT] NULL after IS"⟩)
  | _ => .ok (acc, toks)

/-- `BETWEEN low AND high` clause (operand and optional `NOT` already
consumed). -/
def parseBetweenTail (fuel : Nat) (acc : Expr) (neg : Bool)
    (toks : List Token) : Except ParseErr (Expr × List Token) :=
match fuel with
| 0 => .error ⟨none, "parser fuel exhausted"⟩
| f + 1 => do
  let (lo, r1) ← parseAddE f toks
  match r1 with
  | ⟨.tRes .rAnd, _⟩ :: r2 => do
    let (hi, r3) ← parseAddE f r2
    parseCmpRest f (.between acc lo hi neg) r3
  | ⟨_, p⟩ :: _ => .error ⟨some p, "expected AND in BETWEEN clause"⟩
  | [] => .error ⟨none, "expected AND in BETWEEN clause, found end of input"⟩

/-- `IN (literal, literal, ...)` clause. -/
def parseInTail (fuel : Nat) (acc : Expr) (neg : Bool) (toks : List Token) :
    Except ParseErr (Expr × List Token) :=
match fuel with
| 0 => .error ⟨none, "parser fuel exhausted"⟩
| f + 1 =>
  match toks with
  | ⟨.tOp .oLP, _⟩ :: r => do
    let (l0, r1) ← parseListLit r
    parseInMore f acc neg [l0] r1
  | ⟨_, p⟩ :: _ => .error ⟨some p, "expected ( after IN"⟩
  | [] => .error ⟨none, "expected ( after IN, found end of input"⟩

/-- Remaining comma-separated literals and closing parenthesis of an `IN`
list (first literal already read, accumulated in reverse). -/
def parseInMore (fuel : Nat) (acc : Expr) (neg : Bool) (lits : List Lit)
    (toks : List Token) : Except ParseErr (Expr × List Token) :=
match fuel with
| 0 => .error ⟨none, "parser fuel exhausted"⟩
| f + 1 =>
  match toks with
  | ⟨.tOp .oComma, _⟩ :: r => do
    let (l, r1) ← parseListLit r
    parseInMore f acc neg (l :: lits) r1
  | ⟨.tOp .oRP, _⟩ :: r => parseCmpRest f (.inList acc lits.reverse neg) r
  | ⟨_, p⟩ :: _ => .error ⟨some p, "expected , or ) in IN list"⟩
  | [] => .error ⟨none, "expected , or ) in IN list, found end of input"⟩

/-- `LIKE pattern [ESCAPE char]` clause; the pattern and escape are string
literals and the escape must be a single character. -/
def parseLikeTail (fuel : Nat) (acc : Expr) (neg : Bool)
    (toks : List Token) : Except ParseErr (Expr × List Token) :=
match fuel with
| 0 => .error ⟨none, "parser fuel exhausted"⟩
| f + 1 =>
  match toks with
  | ⟨.tStr pat, _⟩ :: r =>
    (match r with
     | ⟨.tRes .rEscape, pe⟩ :: r2 =>
       (match r2 with
        | ⟨.tStr es, _⟩ :: r3 =>
          (match es.toList with
           | [c] => parseCmpRest f (.like acc pat (some c) neg) r3
           | _ => .error ⟨some pe, "ESCAPE must be a single character"⟩)
        | ⟨_, p⟩ :: _ => .error ⟨some p, "expected string after ESCAPE"⟩
        | [] => .error ⟨none, "expected string after ESCAPE, found end of input"⟩)
     | _ => parseCmpRest f (.like acc pat none neg) r)
  | ⟨_, p⟩ :: _ => .error ⟨some p, "expected pattern string after LIKE"⟩
  | [] => .error ⟨none, "expected pattern string after LIKE, found end of input"⟩

/-- Modelled from the spec: additive tier `+ -`. -/
def parseAddE (fuel : Nat) (toks : List Token) :
    Except ParseErr (Expr × List Token) :=
match fuel with
| 0 => .error ⟨none, "parser fuel exhausted"⟩
| f + 1 => do
  let (a, r) ← parseMulE f toks
  parseAddRest f a r

/-- Left-associative chain of additive operands. -/
def parseAddRest (fuel : Nat) (acc : Expr) (toks : List Token) :
    Except ParseErr (Expr × List Token) :=
match fuel with
| 0 => .error ⟨none, "parser fuel exhausted"⟩
| f + 1 =>
  match toks with
  | ⟨.tOp .oPlus, _⟩ :: r => do
    let (b, r2) ← parseMulE f r
    parseAddRest f (.arith .aAdd acc b) r2
  | ⟨.tOp .oMinus, _⟩ :: r => do
    let (b, r2) ← parseMulE f r
    parseAddRest f (.arith .aSub acc b) r2
  | _ => .ok (acc, toks)

/-- Modelled from the spec: multiplicative tier `* /`. -/
def parseMulE (fuel : Nat) (toks : List Token) :
    Except ParseErr (Expr × List Token) :=
match fuel with
| 0 => .error ⟨none, "parser fuel exhausted"⟩
| f + 1 => do
  let (a, r) ← parseUnaryE f toks
  parseMulRest f a r

/-- Left-associative chain of multiplicative operands. -/
def parseMulRest (fuel : Nat) (acc : Expr) (toks : List Token) :
    Except ParseErr (Expr × List Token) :=
match fuel with
| 0 => .error ⟨none, "parser fuel exhausted"⟩
| f + 1 =>
  match toks with
  | ⟨.tOp .oStar, _⟩ :: r => do
    let (b, r2) ← parseUnaryE f r
    parseMulRest f (.arith .aMul acc b) r2
  | ⟨.tOp .oSlash, _⟩ :: r => do
    let (b, r2) ← parseUnaryE f r
    parseMulRest f (.arith .aDiv acc b) r2
  | _ => .ok (acc, toks)

/-- Modelled from the spec: unary minus tier. -/
def parseUnaryE (fuel : Nat) (toks : List Token) :
    Except ParseErr (Expr × List Token) :=
match fuel with
| 0 => .error ⟨none, "parser fuel exhausted"⟩
| f + 1 =>
  match toks with
  | ⟨.tOp .oMinus, _⟩ :: r => do
    let (a, r2) ← parseUnaryE f r
    .ok (.negE a, r2)
  | _ => parsePrimaryE f toks

/-- Modelled from the spec: primary tier: identifier, literal,
parenthesized sub-expression, boolean keywords. -/
def parsePrimaryE (fuel : Nat) (toks : List Token) :
    Except ParseErr (Expr × List Token) :=
match fuel with
| 0 => .error ⟨none, "parser fuel exhausted"⟩
| f + 1 =>
  match toks with
  | ⟨.tIdent s, _⟩ :: r => .ok (.ident s, r)
  | ⟨.tNum n, _⟩ :: r => .ok (.lit (litOfNum n), r)
  | ⟨.tStr s, _⟩ :: r => .ok (.lit (.lstr s), r)
  | ⟨.tRes .rTrue, _⟩ :: r => .ok (.lit (.lbool true), r)
  | ⟨.tRes .rFalse, _⟩ :: r => .ok (.lit (.lbool false), r)
  | ⟨.tOp .oLP, _⟩ :: r => do
    let (e, r2) ← parseOrE f r
    (match r2 with
     | ⟨.tOp .oRP, _⟩ :: r3 => .ok (e, r3)
     | ⟨_, p⟩ :: _ => .error ⟨some p, "expected )"⟩
     | [] => .error ⟨none, "expected ), found end of input"⟩)
  | ⟨_, p⟩ :: _ => .error ⟨some p, "expected a primary expression"⟩
  | [] => .error ⟨none, "expected a primary expression, found end of input"⟩

end

/-- Negation of a numeric value. -/
def numNeg : NumV → NumV
| .exact i => .exact (-i)
| .approx q => .approx (Rat.neg q)

/-- Modelled from the spec: attempt a numeric parse of a property's
string value (used when a string value meets a numeric context); the
whole string must form one optionally-signed numeric literal. -/
def parseNumV (s : String) : Option NumV :=
match lexAll s with
| .ok [⟨.tNum n, _⟩] => some n
| .ok [⟨.tOp .oMinus, _⟩, ⟨.tNum n, _⟩] => some (numNeg n)
| _ => none

/-- The value a literal denotes. -/
def litVal : Lit → Val
| .lstr s => .vstr s
| .lexact i => .vnum (.exact i)
| .lapprox q => .vnum (.approx q)
| .lbool b => .vbool b

/-- Modelled from the spec: coerce a value to a numeric operand:
numbers stand, strings are parsed, booleans never coerce. -/
def toNum : Val → Option NumV
| .vnum n => some n
| .vstr s => parseNumV s
| .vbool _ => none

/-- Modelled from the spec: apply a comparison operator to two numerics;
mixed exact/approximate comparison promotes to the common number line. -/
def applyCmp (op : CmpOp) (x y : NumV) : Bool :=
match op with
| .ceq => decide (x.toRat = y.toRat)
| .cne => decide (x.toRat ≠ y.toRat)
| .clt => decide (x.toRat < y.toRat)
| .cgt => decide (y.toRat < x.toRat)
| .cle => decide (x.toRat ≤ y.toRat)
| .cge => decide (y.toRat ≤ x.toRat)

/-- Numeric comparison of two optional numerics: a failed coercion on
either side gives no definite answer. -/
def numCmp (op : CmpOp) (a b : Option NumV) : Option Bool :=
match a, b with
| some x, some y => some (applyCmp op x y)
| _, _ => none

/-- Modelled from the spec: compare two values: strings compare as
strings under `=`/`<>` and numerically (after parsing) under the order
operators; booleans admit only `=`/`<>` against booleans; every other
mix attempts numeric coercion; failure to coerce gives no definite
answer (a type mismatch degrades to Unknown upstream). -/
def compareVals (op : CmpOp) (x y : Val) : Option Bool :=
match x, y with
| .vstr a, .vstr b =>
  (match op with
   | .ceq => some (a == b)
   | .cne => some (!(a == b))
   | _ => numCmp op (parseNumV a) (parseNumV b))
| .vbool a, .vbool b =>
  (match op with
   | .ceq => some (a == b)
   | .cne => some (!(a == b))
   | _ => none)
| .vbool _, _ => none
| _, .vbool _ => none
| _, _ => numCmp op (toNum x) (toNum y)

/-- Modelled from the spec: numeric arithmetic: exact with exact stays
exact (division truncating toward zero, as in the implementation
language); any approximate operand promotes the operation to approximate;
division by zero yields no value (Unknown upstream). -/
def numArith (op : ArithOp) (x y : NumV) : Option NumV :=
match x, y with
| .exact i, .exact j =>
  (match op with
   | .aAdd => some (.exact (i + j))
   | .aSub => some (.exact (i - j))
   | .aMul => some (.exact (i * j))
   | .aDiv => if j = 0 then none else some (.exact (Int.tdiv i j)))
| _, _ =>
  let a := x.toRat
  let b := y.toRat
  (match op with
   | .aAdd => some (.approx (ratAdd a b))
   | .aSub => some (.approx (ratSub a b))
   | .aMul => some (.approx (ratMul a b))
   | .aDiv => if b.num = 0 then none else some (.approx (ratDiv a b)))

/-- Identifier resolution: an absent property has no value; a present one
contributes its string form. -/
def identVal (env : SelectorEnv) (n : String) : Option Val :=
if env.present n then some (.vstr (env.value n)) else none

/-- Arithmetic on optional values: both operands must be present and
numerically coercible. -/
def arithVal (op : ArithOp) (a b : Option Val) : Option Val :=
match a, b with
| some x, some y =>
  (match toNum x, toNum y with
   | some nx, some ny => (numArith op nx ny).map .vnum
   | _, _ => none)
| _, _ => none

/-- Unary minus on an optional value. -/
def negVal (a : Option Val) : Option Val :=
match a with
| some x => (toNum x).map (fun n => .vnum (numNeg n))
| none => none

/-- Comparison of optional values, into the three-valued domain:
a missing or incomparable operand gives Unknown. -/
def cmpTri (op : CmpOp) (a b : Option Val) : TriState :=
match a, b with
| some x, some y =>
  (match compareVals op x y with
   | some bl => boolToTri bl
   | none => .tUnknown)
| _, _ => .tUnknown

/-- Apply the grammar's optional `NOT` to a three-valued result. -/
def negIf (neg : Bool) (t : TriState) : TriState :=
if neg then triNot t else t

/-- Modelled from the spec: `BETWEEN` is the inclusive range test
`low <= value` and `value <= high` under three-valued conjunction, the
optional `NOT` applied on top. -/
def betweenTri (v lo hi : Option Val) (neg : Bool) : TriState :=
negIf neg (triAnd (cmpTri .cle lo v) (cmpTri .cle v hi))

/-- Membership scan of an `IN` list: any definite match wins; otherwise
an incomparable entry leaves the answer Unknown; otherwise False. -/
def inScan (x : Val) : List Lit → TriState
| [] => .tFalse
| l :: ls =>
  match compareVals .ceq x (litVal l) with
  | some true => .tTrue
  | some false => inScan x ls
  | none =>
    match inScan x ls with
    | .tTrue => .tTrue
    | _ => .tUnknown

/-- Modelled from the spec: `IN (list)`: True if the value equals a list
entry, Unknown if the value is Unknown; the negated form inverts
True/False and leaves Unknown. -/
def inTri (v : Option Val) (xs : List Lit) (neg : Bool) : TriState :=
match v with
| none => .tUnknown
| some x => negIf neg (inScan x xs)

/-- A compiled `LIKE` pattern element: a literal character, `_`, or `%`. -/
inductive PatTok where
| plit : Char → PatTok
| anyOne : PatTok
| anySeq : PatTok
deriving DecidableEq, Repr

/-- Modelled from the spec: compile a `LIKE` pattern: `%` matches any
sequence and `_` any single character unless preceded by the escape
character, which makes the following character literal; an escape with
nothing following is malformed. -/
def compilePat (cs : List Char) (esc : Option Char) : Option (List PatTok) :=
match cs with
| [] => some []
| c :: rest =>
  if esc = some c then
    match rest with
    | [] => none
    | c2 :: rest2 => (compilePat rest2 esc).map (.plit c2 :: ·)
  else if c == '%' then (compilePat rest esc).map (.anySeq :: ·)
  else if c == '_' then (compilePat rest esc).map (.anyOne :: ·)
  else (compilePat rest esc).map (.plit c :: ·)

/-- Match a compiled `LIKE` pattern against a string's characters. -/
def likeMatch : List PatTok → List Char → Bool
| [], [] => true
| [], _ :: _ => false
| .plit _ :: _, [] => false
| .plit c :: ps, v :: vs => c == v && likeMatch ps vs
| .anyOne :: _, [] => false
| .anyOne :: ps, _ :: vs => likeMatch ps vs
| .anySeq :: ps, vs =>
  likeMatch ps vs ||
    (match vs with
     | [] => false
     | _ :: vs2 => likeMatch (.anySeq :: ps) vs2)
termination_by ps vs => ps.length + vs.length

/-- Modelled from the spec: `LIKE`: a string match on the value; Unknown
when the value is absent, not a string, or the pattern is malformed. -/
def likeTri (v : Option Val) (pat : String) (esc : Option Char)
    (neg : Bool) : TriState :=
match v with
| some (.vstr s) =>
  (match compilePat pat.toList esc with
   | some ps => negIf neg (boolToTri (likeMatch ps s.toList))
   | none => .tUnknown)
| some _ => .tUnknown
| none => .tUnknown

/-- Modelled from the spec: `IS [NOT] NULL`: definite even on absence:
True exactly when the operand has no value. -/
def isNullTri (v : Option Val) (neg : Bool) : TriState :=
negIf neg (match v with | none => .tTrue | some _ => .tFalse)

/-- A definite three-valued result viewed as a value; Unknown contributes
no value. -/
def triToVal : TriState → Option Val
| .tTrue => some (.vbool true)
| .tFalse => some (.vbool false)
| .tUnknown => none

/-- A non-boolean or missing value in boolean position is Unknown; a
boolean value is definite. -/
def valBoolTri : Option Val → TriState
| some (.vbool b) => boolToTri b
| some _ => .tUnknown
| none => .tUnknown

mutual

/-- Modelled from the spec: the value interpretation of an expression:
identifiers resolve through the environment, literals denote themselves,
arithmetic coerces numerically; a boolean sub-expression in value
position contributes its definite boolean, Unknown contributing no
value. -/
def valEval : Expr → SelectorEnv → Option Val
| .ident n, env => identVal env n
| .lit l, _ => some (litVal l)
| .negE a, env => negVal (valEval a env)
| .arith op a b, env => arithVal op (valEval a env) (valEval b env)
| .notE a, env => triToVal (triNot (evalTri a env))
| .andE a b, env => triToVal (triAnd (evalTri a env) (evalTri b env))
| .orE a b, env => triToVal (triOr (evalTri a env) (evalTri b env))
| .cmpE op a b, env => triToVal (cmpTri op (valEval a env) (valEval b env))
| .between v lo hi neg, env =>
  triToVal (betweenTri (valEval v env) (valEval lo env) (valEval hi env) neg)
| .inList v xs neg, env => triToVal (inTri (valEval v env) xs neg)
| .like v pat esc neg, env => triToVal (likeTri (valEval v env) pat esc neg)
| .isNull v neg, env => triToVal (isNullTri (valEval v env) neg)

/-- Modelled from the spec: the three-valued evaluation of an expression
against an environment, with Unknown propagation through comparisons and
arithmetic and the three-valued connective tables. -/
def evalTri : Expr → SelectorEnv → TriState
| .ident n, env => valBoolTri (identVal env n)
| .lit l, _ => valBoolTri (some (litVal l))
| .negE a, env => valBoolTri (negVal (valEval a env))
| .arith op a b, env => valBoolTri (arithVal op (valEval a env) (valEval b env))
| .notE a, env => triNot (evalTri a env)
| .andE a b, env => triAnd (evalTri a env) (evalTri b env)
| .orE a b, env => triOr (evalTri a env) (evalTri b env)
| .cmpE op a b, env => cmpTri op (valEval a env) (valEval b env)
| .between v lo hi neg, env =>
  betweenTri (valEval v env) (valEval lo env) (valEval hi env) neg
| .inList v xs neg, env => inTri (valEval v env) xs neg
| .like v pat esc neg, env => likeTri (valEval v env) pat esc neg
| .isNull v neg, env => isNullTri (valEval v env) neg

end

/-- The compiled Selector: the header shows its `const std::string
expression` member; the spec's data model pairs the original source text
with the owned AST root, both immutable once constructed. -/
structure Selector where
expression : String
ast : Expr
deriving DecidableEq, Repr

/-- Modelled from the spec: `compile(selector_text) -> Selector or
error`: lex, parse one whole expression, reject an empty expression and
any trailing tokens after a complete expression. -/
def compile (src : String) : Except CompErr Selector :=
match lexAll src with
| .error e => .error (.lexE e)
| .ok [] => .error (.parseE ⟨none, "empty selector expression"⟩)
| .ok toks =>
  match parseOrE (toks.length * 8 + 16) toks with
  | .error e => .error (.parseE e)
  | .ok (e, []) => .ok ⟨src, e⟩
  | .ok (_, t :: _) =>
    .error (.parseE ⟨some t.pos, "trailing tokens after expression"⟩)

/-- Modelled from the spec: `Selector::eval(environment) -> bool` runs
the evaluator and collapses the three-valued result: Unknown -> false,
True -> true, False -> false (a message is delivered only on a definite
True). -/
def Selector.eval (s : Selector) (env : SelectorEnv) : Bool :=
match evalTri s.ast env with
| .tTrue => true
| .tFalse => false
| .tUnknown => false

/-- Modelled from the spec: `Selector::filter(message)` constructs the
environment adapter over the message and calls `eval`. -/
def Selector.filter (s : Selector) (m : Msg) : Bool :=
s.eval (msgEnv m)

/-- Compile-then-filter on a source text, for stating concrete scenarios:
none when compilation fails. -/
def filterText (src : String) (m : Msg) : Option Bool :=
(compile src).toOption.map (fun s => s.filter m)

/-- Whether a compile attempt failed with a parse (not lexical) error. -/
def failedParseB : Except CompErr Selector → Bool
| .error (.parseE _) => true
| _ => false

/-- Modelled from the spec: the selector cache state: a mapping from
source text (exact, case-sensitive key) to the shared compiled
Selector. -/
def CacheState := List (String × Selector)

/-- Modelled from the spec: `get_or_compile(selector_text)`: on a hit the
cached Selector is returned; on a miss the text is compiled, a success is
inserted, and a failed parse is not cached (the state is returned
unchanged). -/
def getOrCompile (src : String) (st : CacheState) :
    Except CompErr Selector × CacheState :=
match List.lookup src st with
| some sel => (.ok sel, st)
| none =>
  match compile src with
  | .ok sel => (.ok sel, (src, sel) :: st)
  | .error e => (.error e, st)

/-- A selector object handle, distinguishing object identity (the
allocation id) from the object's contents, so that "the same shared
instance" is expressible. -/
structure SelRef where
id : Nat
sel : Selector
deriving DecidableEq, Repr

/-- `returnSelector` as the header documents it: it returns a
shared-pointer to a Selector built from the given specification string;
the accompanying comment says the code is structured so that it *can
move to* caching Selectors and returning an existing one — i.e. no cache
exists yet, and each call constructs a fresh Selector object. The
allocation counter is the next fresh object identity. -/
def returnSelector (src : String) (nextId : Nat) :
    Except CompErr SelRef × Nat :=
match compile src with
| .ok sel => (.ok ⟨nextId, sel⟩, nextId + 1)
| .error e => (.error e, nextId)

/-- One filtering step: the C++ `filter` takes the message by const
reference and `Selector`'s only data member is `const std::string
expression`, so a step yields the delivery decision and leaves the
selector as it was. -/
def filterStep (s : Selector) (m : Msg) : Bool × Selector :=
(s.filter m, s)

/-- Filtering a sequence of messages, threading the selector through the
calls as the delivery path does. -/
def filterSeq (s : Selector) : List Msg → List Bool × Selector
| [] => ([], s)
| m :: ms =>
  let (b, s1) := filterStep s m
  let (bs, s2) := filterSeq s1 ms
  (b :: bs, s2)

/-! ## Helper lemmas -/

/-- Numeric `>=` is `<=` with the operands swapped. -/
theorem numCmp_cge_swap (a b : Option NumV) :
    numCmp .cge a b = numCmp .cle b a := by
  cases a <;> cases b <;> rfl

/-- Value-level `>=` is `<=` with the operands swapped, across every
coercion case. -/
theorem compareVals_cge_swap (x y : Val) :
    compareVals .cge x y = compareVals .cle y x := by
  cases x <;> cases y <;> simp [compareVals, numCmp_cge_swap]

/-- Three-valued `>=` is `<=` with the operands swapped. -/
theorem cmpTri_cge_swap (a b : Option Val) :
    cmpTri .cge a b = cmpTri .cle b a := by
  cases a <;> cases b <;> simp [cmpTri, compareVals_cge_swap]

/-- The boolean collapse of a three-valued result is `decide (· = True)`. -/
theorem Selector.eval_eq_decide (s : Selector) (env : SelectorEnv) :
    s.eval env = decide (evalTri s.ast env = .tTrue) := by
  unfold Selector.eval
  cases evalTri s.ast env <;> rfl

/-! ## Claims -/

/-- C1: for every selector expression and every evaluation environment,
`Selector.eval` (and hence `Selector.filter`) returns the definite
boolean collapse of the three-valued evaluation: the result is `true`
exactly when the predicate evaluates to a definite True, so Unknown and
False both collapse to `false`; `filter` is `eval` over the message's
environment adapter. -/
theorem c1_eval_collapses_three_valued_result :
    ∀ (s : Selector) (env : SelectorEnv) (m : Msg),
      s.eval env = decide (evalTri s.ast env = .tTrue)
      ∧ s.filter m = decide (evalTri s.ast (msgEnv m) = .tTrue) := by
  intro s env m
  exact ⟨Selector.eval_eq_decide s env, Selector.eval_eq_decide s (msgEnv m)⟩

/-- C5: the evaluator's connectives obey the three-valued laws: for
`AND`, False dominates, then Unknown dominates, and True requires both
operands True; for `OR`, True dominates, then Unknown dominates, and
False requires both operands False; `NOT` flips True and False and fixes
Unknown. -/
theorem c5_three_valued_connective_laws :
    ∀ (a b : Expr) (env : SelectorEnv),
      (evalTri a env = .tFalse ∨ evalTri b env = .tFalse →
        evalTri (.andE a b) env = .tFalse)
      ∧ (evalTri a env ≠ .tFalse → evalTri b env ≠ .tFalse →
          (evalTri a env = .tUnknown ∨ evalTri b env = .tUnknown) →
          evalTri (.andE a b) env = .tUnknown)
      ∧ (evalTri (.andE a b) env = .tTrue ↔
          evalTri a env = .tTrue ∧ evalTri b env = .tTrue)
      ∧ (evalTri a env = .tTrue ∨ evalTri b env = .tTrue →
          evalTri (.orE a b) env = .tTrue)
      ∧ (evalTri a env ≠ .tTrue → evalTri b env ≠ .tTrue →
          (evalTri a env = .tUnknown ∨ evalTri b env = .tUnknown) →
          evalTri (.orE a b) env = .tUnknown)
      ∧ (evalTri (.orE a b) env = .tFalse ↔
          evalTri a env = .tFalse ∧ evalTri b env = .tFalse)
      ∧ (evalTri a env = .tTrue → evalTri (.notE a) env = .tFalse)
      ∧ (evalTri a env = .tFalse → evalTri (.notE a) env = .tTrue)
      ∧ (evalTri a env = .tUnknown → evalTri (.notE a) env = .tUnknown) := by
  intro a b env
  cases h1 : evalTri a env <;> cases h2 : evalTri b env <;>
    simp [evalTri, triAnd, triOr, triNot, h1, h2]

/-- C5 witness: the laws applied with concrete operands and a concrete
environment: a False conjunct dominates an Unknown one, a True disjunct
dominates an Unknown one, and NOT fixes Unknown. -/
theorem c5_three_valued_connective_laws_witness :
    evalTri (.andE (.lit (.lbool false)) (.isNull (.ident "p") true))
      (msgEnv []) = .tFalse
    ∧ evalTri (.orE (.lit (.lbool true)) (.cmpE .ceq (.ident "p") (.lit (.lexact 5))))
        (msgEnv []) = .tTrue
    ∧ evalTri (.notE (.cmpE .ceq (.ident "p") (.lit (.lexact 5))))
        (msgEnv []) = .tUnknown := by
  refine ⟨?_, ?_, ?_⟩
  · exact (c5_three_valued_connective_laws (.lit (.lbool false))
      (.isNull (.ident "p") true) (msgEnv [])).1 (Or.inl (by decide))
  · exact (c5_three_valued_connective_laws (.lit (.lbool true))
      (.cmpE .ceq (.ident "p") (.lit (.lexact 5))) (msgEnv [])).2.2.2.1
      (Or.inl (by decide))
  · exact (c5_three_valued_connective_laws
      (.cmpE .ceq (.ident "p") (.lit (.lexact 5))) (.lit (.lbool true))
      (msgEnv [])).2.2.2.2.2.2.2.2 (by decide)

/-- C6: `v BETWEEN low AND high` evaluates to exactly the same
three-valued result as `v >= low AND v <= high`, and the negated form to
`NOT (v >= low AND v <= high)`; the range is inclusive at both
boundaries: `score BETWEEN 10 AND 20` delivers for score 10 and not for
score 21. -/
theorem c6_between_equals_conjunction_of_bounds :
    ∀ (v lo hi : Expr) (env : SelectorEnv),
      evalTri (.between v lo hi false) env
        = evalTri (.andE (.cmpE .cge v lo) (.cmpE .cle v hi)) env
      ∧ evalTri (.between v lo hi true) env
        = evalTri (.notE (.andE (.cmpE .cge v lo) (.cmpE .cle v hi))) env
      ∧ filterText "score BETWEEN 10 AND 20" [("score", "10")] = some true
      ∧ filterText "score BETWEEN 10 AND 20" [("score", "21")] = some false := by
  intro v lo hi env
  refine ⟨?_, ?_, by decide, by decide⟩
  · show betweenTri (valEval v env) (valEval lo env) (valEval hi env) false
      = triAnd (cmpTri .cge (valEval v env) (valEval lo env))
          (cmpTri .cle (valEval v env) (valEval hi env))
    rw [betweenTri, negIf, cmpTri_cge_swap]
    rfl
  · show betweenTri (valEval v env) (valEval lo env) (valEval hi env) true
      = triNot (triAnd (cmpTri .cge (valEval v env) (valEval lo env))
          (cmpTri .cle (valEval v env) (valEval hi env)))
    rw [betweenTri, negIf, cmpTri_cge_swap]
    rfl

/-- A comparison whose left operand is an absent identifier is Unknown,
whatever the operator and right operand. -/
theorem cmp_absent_left (env : SelectorEnv) (p : String) (e2 : Expr)
    (op : CmpOp) (h : env.present p = false) :
    evalTri (.cmpE op (.ident p) e2) env = .tUnknown := by
  show cmpTri op (valEval (.ident p) env) (valEval e2 env) = .tUnknown
  rw [valEval, identVal, h]
  simp only [Bool.false_eq_true, if_false]
  cases valEval e2 env <;> rfl

/-- C3: evaluation is total and never hard-fails: a compiled selector's
`filter` always returns `true` or `false`; a missing property makes a
comparison Unknown; division by an exact zero yields no value and an
enclosing comparison Unknown; a type mismatch (boolean against number)
is Unknown; a malformed LIKE pattern (escape with nothing following) is
Unknown. -/
theorem c3_evaluation_never_hard_fails :
    ∀ (src : String) (sel : Selector) (m : Msg) (env : SelectorEnv)
      (e1 e2 : Expr) (p : String),
      (compile src = .ok sel → sel.filter m = true ∨ sel.filter m = false)
      ∧ (env.present p = false →
          ∀ op, evalTri (.cmpE op (.ident p) e1) env = .tUnknown)
      ∧ (valEval e2 env = some (.vnum (.exact 0)) →
          valEval (.arith .aDiv e1 e2) env = none
          ∧ ∀ op, evalTri (.cmpE op (.arith .aDiv e1 e2) e1) env = .tUnknown)
      ∧ evalTri (.cmpE .clt (.lit (.lbool true)) (.lit (.lexact 5))) env
          = .tUnknown
      ∧ evalTri (.like (.lit (.lstr "abc")) "ab" (some 'b') false) env
          = .tUnknown := by
  intro src sel m env e1 e2 p
  have hz : ∀ nx : NumV, numArith .aDiv nx (.exact 0) = none := by
    intro nx
    cases nx <;> rfl
  have hdiv : valEval e2 env = some (.vnum (.exact 0)) →
      valEval (.arith .aDiv e1 e2) env = none := by
    intro h
    show arithVal .aDiv (valEval e1 env) (valEval e2 env) = none
    rw [h]
    cases hv : valEval e1 env with
    | none => rfl
    | some x =>
      cases hx : toNum x with
      | none =>
        simp only [arithVal]
        rw [hx]
      | some nx =>
        simp only [arithVal]
        rw [hx]
        show Option.map Val.vnum (numArith .aDiv nx (.exact 0)) = none
        rw [hz nx]
        rfl
  refine ⟨?_, ?_, ?_, by rfl, by rfl⟩
  · intro _
    cases hb : sel.filter m
    · exact Or.inr rfl
    · exact Or.inl rfl
  · intro h op
    exact cmp_absent_left env p e1 op h
  · intro h
    refine ⟨hdiv h, ?_⟩
    intro op
    show cmpTri op (valEval (.arith .aDiv e1 e2) env) (valEval e1 env)
      = .tUnknown
    rw [hdiv h]
    cases valEval e1 env <;> rfl

/-- C3 witness: the claim instantiated: a concrete compiled selector
filters to a definite boolean; a comparison against a missing property is
Unknown; division by the literal zero has no value. -/
theorem c3_evaluation_never_hard_fails_witness :
    (Selector.filter
        ⟨"weight > 10", .cmpE .cgt (.ident "weight") (.lit (.lexact 10))⟩
        [("weight", "15")] = true
      ∨ Selector.filter
          ⟨"weight > 10", .cmpE .cgt (.ident "weight") (.lit (.lexact 10))⟩
          [("weight", "15")] = false)
    ∧ evalTri (.cmpE .ceq (.ident "p") (.lit (.lexact 5))) (msgEnv [])
        = .tUnknown
    ∧ valEval (.arith .aDiv (.lit (.lexact 5)) (.lit (.lexact 0))) (msgEnv [])
        = none := by
  have h := c3_evaluation_never_hard_fails "weight > 10"
    ⟨"weight > 10", .cmpE .cgt (.ident "weight") (.lit (.lexact 10))⟩
    [("weight", "15")] (msgEnv []) (.lit (.lexact 5)) (.lit (.lexact 0)) "p"
  exact ⟨h.1 rfl, h.2.1 rfl .ceq, (h.2.2.1 rfl).1⟩

/-- C4: `p IS NULL` is definitely True exactly when `present p` is false
and `p IS NOT NULL` is its definite negation, whether or not the property
is present; any ordinary comparison on an absent identifier is Unknown
instead, so e.g. `p = 5` makes `eval` return false. -/
theorem c4_is_null_definite_on_absence :
    ∀ (env : SelectorEnv) (p : String) (e2 : Expr),
      (env.present p = false →
        evalTri (.isNull (.ident p) false) env = .tTrue
        ∧ evalTri (.isNull (.ident p) true) env = .tFalse
        ∧ (∀ op, evalTri (.cmpE op (.ident p) e2) env = .tUnknown)
        ∧ Selector.eval ⟨"p = 5", .cmpE .ceq (.ident p) (.lit (.lexact 5))⟩
            env = false)
      ∧ (env.present p = true →
        evalTri (.isNull (.ident p) false) env = .tFalse
        ∧ evalTri (.isNull (.ident p) true) env = .tTrue) := by
  intro env p e2
  constructor
  · intro h
    refine ⟨?_, ?_, fun op => cmp_absent_left env p e2 op h, ?_⟩
    · show isNullTri (identVal env p) false = .tTrue
      rw [identVal, h]
      rfl
    · show isNullTri (identVal env p) true = .tFalse
      rw [identVal, h]
      rfl
    · rw [Selector.eval_eq_decide]
      rw [show Selector.ast ⟨"p = 5", .cmpE .ceq (.ident p) (.lit (.lexact 5))⟩
        = .cmpE .ceq (.ident p) (.lit (.lexact 5)) from rfl]
      rw [cmp_absent_left env p (.lit (.lexact 5)) .ceq h]
      rfl
  · intro h
    constructor
    · show isNullTri (identVal env p) false = .tFalse
      rw [identVal, h]
      rfl
    · show isNullTri (identVal env p) true = .tTrue
      rw [identVal, h]
      rfl

/-- C4 witness: against the empty message, `p IS NULL` is True,
`p IS NOT NULL` is False and `p = 5` collapses to a false delivery
decision; against a message carrying `p`, `p IS NULL` is False. -/
theorem c4_is_null_definite_on_absence_witness :
    evalTri (.isNull (.ident "p") false) (msgEnv []) = .tTrue
    ∧ evalTri (.isNull (.ident "p") true) (msgEnv []) = .tFalse
    ∧ evalTri (.cmpE .ceq (.ident "p") (.lit (.lexact 5))) (msgEnv [])
        = .tUnknown
    ∧ Selector.eval ⟨"p = 5", .cmpE .ceq (.ident "p") (.lit (.lexact 5))⟩
        (msgEnv []) = false
    ∧ evalTri (.isNull (.ident "p") false) (msgEnv [("p", "1")]) = .tFalse := by
  have h1 := (c4_is_null_definite_on_absence (msgEnv []) "p"
    (.lit (.lexact 5))).1 rfl
  have h2 := (c4_is_null_definite_on_absence (msgEnv [("p", "1")]) "p"
    (.lit (.lexact 5))).2 rfl
  exact ⟨h1.1, h1.2.1, h1.2.2.1 .ceq, h1.2.2.2, h2.1⟩

/-- C7: for every selector text whose compilation fails — e.g. the
malformed `color = ` (missing right operand), which fails with a parse
error — no usable Selector is produced: `getOrCompile` returns the
compile error and leaves the cache without an entry for that text, and a
subsequent call with the same still-invalid string reattempts the parse
and fails the same way, again leaving the cache unchanged. -/
theorem c7_failed_parse_not_cached :
    ∀ (src : String) (e : CompErr) (st : CacheState),
      compile src = .error e →
      List.lookup src st = none →
      (getOrCompile src st).1 = .error e
      ∧ (getOrCompile src st).2 = st
      ∧ (getOrCompile src ((getOrCompile src st).2)).1 = .error e
      ∧ (getOrCompile src ((getOrCompile src st).2)).2 = st
      ∧ failedParseB (compile "color = ") = true
      ∧ compile "color = " = .error (.parseE
          ⟨none, "expected a primary expression, found end of input"⟩) := by
  intro src e st hc h
  have h1 : getOrCompile src st = (.error e, st) := by
    rw [getOrCompile, h, hc]
  have h2 : (getOrCompile src st).2 = st := by rw [h1]
  refine ⟨by rw [h1], h2, ?_, ?_, rfl, rfl⟩
  · rw [h2, h1]
  · rw [h2, h1]

/-- C7 witness: starting from the empty cache, compiling `color = `
fails with a parse error, the cache stays empty, and the second attempt
fails identically and again records nothing. -/
theorem c7_failed_parse_not_cached_witness :
    (getOrCompile "color = " ([] : CacheState)).1
      = .error (.parseE
          ⟨none, "expected a primary expression, found end of input"⟩)
    ∧ (getOrCompile "color = " ([] : CacheState)).2 = ([] : CacheState)
    ∧ (getOrCompile "color = "
        ((getOrCompile "color = " ([] : CacheState)).2)).1
        = .error (.parseE
            ⟨none, "expected a primary expression, found end of input"⟩)
    ∧ (getOrCompile "color = "
        ((getOrCompile "color = " ([] : CacheState)).2)).2
        = ([] : CacheState)
    ∧ failedParseB (compile "color = ") = true
    ∧ compile "color = " = .error (.parseE
        ⟨none, "expected a primary expression, found end of input"⟩) :=
  c7_failed_parse_not_cached "color = "
    (.parseE ⟨none, "expected a primary expression, found end of input"⟩)
    [] rfl rfl

/-- The selector returned by `filterSeq` is the one it started with. -/
theorem filterSeq_preserves (s : Selector) (ms : List Msg) :
    (filterSeq s ms).2 = s := by
  induction ms with
  | nil => rfl
  | cons m ms ih => simpa [filterSeq, filterStep] using ih

/-- `filterSeq` returns exactly the per-message filter decisions. -/
theorem filterSeq_map (s : Selector) (ms : List Msg) :
    (filterSeq s ms).1 = ms.map (fun m => s.filter m) := by
  induction ms with
  | nil => rfl
  | cons m ms ih => simpa [filterSeq, filterStep] using ih

/-- C9: filtering has no effect beyond reading: a filtering step returns
the selector unchanged; filtering a sequence of messages leaves the
selector as it was and returns exactly the map of the per-message
decisions, so each call's result depends only on that message; and the
decision depends only on the stored expression tree, not on any other
selector state. -/
theorem c9_filter_effect_free_and_independent :
    ∀ (s : Selector) (ms : List Msg) (m : Msg) (env : SelectorEnv),
      filterStep s m = (s.filter m, s)
      ∧ (filterSeq s ms).2 = s
      ∧ (filterSeq s ms).1 = ms.map (fun mm => s.filter mm)
      ∧ (filterSeq s (ms ++ [m])).1 = (filterSeq s ms).1 ++ [s.filter m]
      ∧ (∀ s2 : Selector, s2.ast = s.ast → s2.eval env = s.eval env) := by
  intro s ms m env
  refine ⟨rfl, filterSeq_preserves s ms, filterSeq_map s ms, ?_, ?_⟩
  · rw [filterSeq_map, filterSeq_map, List.map_append]
    rfl
  · intro s2 h
    unfold Selector.eval
    rw [h]

/-- C9 witness: a concrete run over two messages returns the two
independent decisions and the unchanged selector, and a selector that
differs only in its source-text field evaluates identically. -/
theorem c9_filter_effect_free_and_independent_witness :
    filterSeq ⟨"weight > 10", .cmpE .cgt (.ident "weight") (.lit (.lexact 10))⟩
      [[("weight", "15")], [("weight", "5")]]
      = ([true, false],
         ⟨"weight > 10", .cmpE .cgt (.ident "weight") (.lit (.lexact 10))⟩)
    ∧ Selector.eval ⟨"other text", .cmpE .cgt (.ident "weight") (.lit (.lexact 10))⟩
        (msgEnv [("weight", "15")])
      = Selector.eval ⟨"weight > 10", .cmpE .cgt (.ident "weight") (.lit (.lexact 10))⟩
        (msgEnv [("weight", "15")]) := by
  have h := c9_filter_effect_free_and_independent
    ⟨"weight > 10", .cmpE .cgt (.ident "weight") (.lit (.lexact 10))⟩
    [[("weight", "15")], [("weight", "5")]] [("weight", "3")]
    (msgEnv [("weight", "15")])
  refine ⟨?_, ?_⟩
  · have h1 := h.2.1
    have h2 := h.2.2.1
    rw [Prod.ext_iff]
    exact ⟨by rw [h2]; rfl, by rw [h1]⟩
  · exact h.2.2.2.2
      ⟨"other text", .cmpE .cgt (.ident "weight") (.lit (.lexact 10))⟩ rfl

/-- C10: evaluation is deterministic: two environments that give the same
`present` and `value` answers on every property name produce the same
three-valued result and the same collapsed boolean for every expression;
the outcome is a function only of the expression and the environment's
responses. -/
theorem c10_eval_deterministic :
    ∀ (e : Expr) (env1 env2 : SelectorEnv),
      (∀ n, env1.present n = env2.present n) →
      (∀ n, env1.value n = env2.value n) →
      evalTri e env1 = evalTri e env2
      ∧ ∀ (src : String),
          Selector.eval ⟨src, e⟩ env1 = Selector.eval ⟨src, e⟩ env2 := by
  intro e env1 env2 hp hv
  cases env1 with
  | mk p1 v1 =>
    cases env2 with
    | mk p2 v2 =>
      have hpe : p1 = p2 := funext hp
      have hve : v1 = v2 := funext hv
      subst hpe
      subst hve
      exact ⟨rfl, fun _ => rfl⟩

/-- C10 witness: the message-backed environment for `a = 1` and a
hand-written environment giving the same responses produce the same
result. -/
theorem c10_eval_deterministic_witness :
    evalTri (.cmpE .ceq (.ident "a") (.lit (.lexact 1)))
      (msgEnv [("a", "1")])
    = evalTri (.cmpE .ceq (.ident "a") (.lit (.lexact 1)))
      ⟨fun n => n == "a", fun n => if n == "a" then "1" else ""⟩ := by
  have h := c10_eval_deterministic (.cmpE .ceq (.ident "a") (.lit (.lexact 1)))
    (msgEnv [("a", "1")])
    ⟨fun n => n == "a", fun n => if n == "a" then "1" else ""⟩
    (by
      intro n
      show (List.lookup n [("a", "1")]).isSome = (n == "a")
      cases h : n == "a" <;> simp [List.lookup, h])
    (by
      intro n
      show (List.lookup n [("a", "1")]).getD "" = if n == "a" then "1" else ""
      cases h : n == "a" <;> simp [List.lookup, h])
  exact h.1

/-- C2 counterexample: two `returnSelector` calls with the same source
text both succeed but yield distinct selector objects (the allocation
ids 0 and 1), refuting "the same shared Selector instance
(identity-equal)": the header's comment says the code is only structured
so that it *can move to* caching and returning an existing instance. -/
theorem c2_counterexample_distinct_instances :
    (returnSelector "weight > 10" 0).2 = 1
    ∧ (returnSelector "weight > 10" 0).1
        = .ok ⟨0, ⟨"weight > 10", .cmpE .cgt (.ident "weight") (.lit (.lexact 10))⟩⟩
    ∧ (returnSelector "weight > 10" 1).1
        = .ok ⟨1, ⟨"weight > 10", .cmpE .cgt (.ident "weight") (.lit (.lexact 10))⟩⟩
    ∧ (SelRef.mk 0 ⟨"weight > 10", .cmpE .cgt (.ident "weight") (.lit (.lexact 10))⟩
        ≠ SelRef.mk 1 ⟨"weight > 10", .cmpE .cgt (.ident "weight") (.lit (.lexact 10))⟩) :=
  ⟨rfl, rfl, rfl, by decide⟩

/-- C2 (amended): two successful `returnSelector` calls with the same
source text construct two distinct Selector objects — no cache exists
yet, the structure merely permits adding one — but the two selectors have
identical contents (the same expression text and tree) and therefore give
identical `filter` results for every message. -/
theorem c2_same_text_same_behaviour_fresh_instances :
    ∀ (src : String) (n : Nat) (a b : SelRef),
      (returnSelector src n).1 = .ok a →
      (returnSelector src ((returnSelector src n).2)).1 = .ok b →
      a.id ≠ b.id ∧ a.sel = b.sel ∧ ∀ m, a.sel.filter m = b.sel.filter m := by
  intro src n a b ha hb
  cases hc : compile src with
  | error e =>
    rw [returnSelector, hc] at ha
    exact absurd ha (by simp)
  | ok sel =>
    rw [returnSelector, hc] at ha hb
    rw [returnSelector, hc] at hb
    have ha2 : a = ⟨n, sel⟩ := by
      have := ha
      simp at this
      exact this.symm
    have hb2 : b = ⟨n + 1, sel⟩ := by
      have := hb
      simp at this
      exact this.symm
    subst ha2
    subst hb2
    exact ⟨by simp, rfl, fun _ => rfl⟩

/-- C2 witness: the amended statement at the concrete text
`weight > 10` from allocation state 0: ids 0 and 1 differ, the contents
agree, and a sample message filters identically through both. -/
theorem c2_same_text_same_behaviour_fresh_instances_witness :
    (SelRef.mk 0 ⟨"weight > 10", .cmpE .cgt (.ident "weight") (.lit (.lexact 10))⟩).id
      ≠ (SelRef.mk 1 ⟨"weight > 10", .cmpE .cgt (.ident "weight") (.lit (.lexact 10))⟩).id
    ∧ (SelRef.mk 0 ⟨"weight > 10", .cmpE .cgt (.ident "weight") (.lit (.lexact 10))⟩).sel
      = (SelRef.mk 1 ⟨"weight > 10", .cmpE .cgt (.ident "weight") (.lit (.lexact 10))⟩).sel
    ∧ ∀ m, Selector.filter
        (SelRef.mk 0 ⟨"weight > 10", .cmpE .cgt (.ident "weight") (.lit (.lexact 10))⟩).sel m
      = Selector.filter
        (SelRef.mk 1 ⟨"weight > 10", .cmpE .cgt (.ident "weight") (.lit (.lexact 10))⟩).sel m :=
  c2_same_text_same_behaviour_fresh_instances "weight > 10" 0
    ⟨0, ⟨"weight > 10", .cmpE .cgt (.ident "weight") (.lit (.lexact 10))⟩⟩
    ⟨1, ⟨"weight > 10", .cmpE .cgt (.ident "weight") (.lit (.lexact 10))⟩⟩
    rfl rfl

/-- C8 counterexample: `value`'s result type does not distinguish an
absent property from a present one: an environment where `color` is
absent and one where it is present can return the very same string from
`value`; only `present` tells them apart. -/
theorem c8_counterexample_value_does_not_distinguish :
    (SelectorEnv.mk (fun _ => false) (fun _ => "red")).present "color" = false
    ∧ (SelectorEnv.mk (fun _ => true) (fun _ => "red")).present "color" = true
    ∧ (SelectorEnv.mk (fun _ => false) (fun _ => "red")).value "color"
        = (SelectorEnv.mk (fun _ => true) (fun _ => "red")).value "color" :=
  ⟨rfl, rfl, rfl⟩

/-- C8 (amended): `value` returns a plain string with no explicit absent
outcome (the header's `value` returns `std::string` and its TODO defers
richer values); absence is signalled solely by the separate `present`
capability, and the evaluator resolves an identifier to no value exactly
when `present` is false, taking `value`'s string only when `present` is
true. -/
theorem c8_absence_signalled_by_present_only :
    ∀ (env : SelectorEnv) (p : String),
      (env.present p = false → valEval (.ident p) env = none)
      ∧ (env.present p = true →
          valEval (.ident p) env = some (.vstr (env.value p))) := by
  intro env p
  constructor
  · intro h
    show identVal env p = none
    rw [identVal, h]
    rfl
  · intro h
    show identVal env p = some (.vstr (env.value p))
    rw [identVal, h]
    rfl

/-- C8 witness: the amended statement at concrete environments: with
`color` absent the identifier resolves to no value; with it present the
identifier resolves to the `value` string. -/
theorem c8_absence_signalled_by_present_only_witness :
    valEval (.ident "color") (msgEnv []) = none
    ∧ valEval (.ident "color") (msgEnv [("color", "red")])
        = some (.vstr ((msgEnv [("color", "red")]).value "color")) :=
  ⟨(c8_absence_signalled_by_present_only (msgEnv []) "color").1 rfl,
   (c8_absence_signalled_by_present_only (msgEnv [("color", "red")]) "color").2 rfl⟩

end Qpid
